import Mathlib

/-!
# Verification of the document indexing and deduplication engine

Shallow embedding of `document_processor.py` and `file_tracker.py` of the
AIAssistant project: the chunk store (ChromaDB) is modelled as a list of
`(id, document)` records, the ledger (`IndexedFilesTracker`) as an in-memory
association list together with its persisted copy, and the filesystem as a
partial map from paths to modification times.  External collaborators
(the text splitter, the md5 hash, the embedding back-end's success or
failure, text extraction) are parameters of the embedded functions.
-/

namespace AIAssistant

/-! ## Decimal rendering of natural numbers (Python `str(i)`) -/

/-- Big-endian decimal digit characters of `n`, with enough `fuel`
(any `fuel > n` suffices).  Structural recursion on the fuel keeps the
function kernel-computable. -/
def natReprAux : Nat → Nat → List Char
  | 0, _ => []
  | fuel + 1, n =>
    if n < 10 then [Nat.digitChar n]
    else natReprAux fuel (n / 10) ++ [Nat.digitChar (n % 10)]

/-- Decimal rendering of a natural number, as Python's `str(i)` produces it
inside the f-string `f"{filename}_{i}"`. -/
def natRepr (n : Nat) : String :=
  String.mk (natReprAux (n + 1) n)

/-! ## Data model: chunk documents and the content store (ChromaDB) -/

/-- A langchain `Document` as built in `process_document`: the chunk text plus
the metadata dict `{'source', 'source_path', 'chunk_index', 'total_chunks',
'content_hash', 'indexed_at'}`. -/
structure Doc where
  page_content : String
  source : String
  source_path : String
  chunk_index : Nat
  total_chunks : Nat
  content_hash : String
  indexed_at : String
deriving Repr, DecidableEq

/-- The ChromaDB collection: a list of `(chunk id, document)` records. -/
abbrev ChunkStore := List (String × Doc)

/-- An error raised by a ChromaDB collection call. -/
inductive ChromaErr where
  | err
deriving Repr, DecidableEq

/-- The chunk id `f"{filename}_{i}"`. -/
def chunkId (filename : String) (i : Nat) : String :=
  filename ++ "_" ++ natRepr i

/-- `collection.get(where={"source": filename}, limit=1)` over a store that
answers from its records: the ids of (at most one of) the records whose
`source` metadata equals `filename`. -/
def chromaGetBySource (store : ChunkStore) (filename : String) :
    Except ChromaErr (List String) :=
  .ok (((store.filter (fun p => p.2.source == filename)).map (·.1)).take 1)

/-- `collection.get(ids=[id], include=[])` over a store that answers from its
records: the ids of the records whose id equals `id`. -/
def chromaGetById (store : ChunkStore) (id : String) :
    Except ChromaErr (List String) :=
  .ok ((store.filter (fun p => p.1 == id)).map (·.1))

/-- `is_document_in_chroma`: the two existence probes, parameterised over the
collection's two query entry points (which may raise).  Both probes live in a
single `try` block in the source, so an error from either one is caught and
the whole check returns `false`. -/
def is_document_in_chroma
    (getWhere getIds : String → Except ChromaErr (List String))
    (filename : String) : Bool :=
  match getWhere filename with
  | .error _ => false
  | .ok ids₁ =>
    if ids₁.length > 0 then true
    else
      match getIds (filename ++ "_0") with
      | .error _ => false
      | .ok ids₂ => ids₂.length > 0

/-- `is_document_in_chroma` against a store whose query paths answer
consistently from its records. -/
def is_document_in_chroma_store (store : ChunkStore) (filename : String) : Bool :=
  is_document_in_chroma (chromaGetBySource store) (chromaGetById store) filename

/-- `get_indexed_sources_from_chroma`: the set of distinct `source` metadata
values over all records (the pagination loop enumerates every record). -/
def get_indexed_sources_from_chroma (store : ChunkStore) : List String :=
  (store.map (·.2.source)).dedup

/-- `delete_document_from_chroma`: delete every record whose id was found by
the `source == filename` query; return the new store and the deleted count. -/
def delete_document_from_chroma (filename : String) (store : ChunkStore) :
    ChunkStore × Nat :=
  let ids := (store.filter (fun p => p.2.source == filename)).map (·.1)
  (store.filter (fun p => !(ids.contains p.1)), ids.length)

/-! ## Document processing -/

/-- `get_document_hash`: md5 hexdigest of the document text.  The md5
function itself is an external collaborator, passed in. -/
def get_document_hash (md5hex : String → String) (text : String) : String :=
  md5hex text

/-- `MAX_CHUNK_CHARS` from `process_document`. -/
def MAX_CHUNK_CHARS : Nat := 1500

/-- The per-chunk truncation in `process_document`'s chunk loop:
`chunk[:MAX_CHUNK_CHARS] + "..."` when over-length, unchanged otherwise. -/
def truncate_chunk (chunk : String) : String :=
  if chunk.length > MAX_CHUNK_CHARS then chunk.take MAX_CHUNK_CHARS ++ "..." else chunk

/-- The further truncation applied in the individual-insert fallback:
`doc.page_content[:1000] + "..."` when the text is over 1000 chars. -/
def truncate_for_individual (s : String) : String :=
  if s.length > 1000 then s.take 1000 ++ "..." else s

/-- Python's `x or default` over an optional string. -/
def py_or_string (s : Option String) (dflt : String) : String :=
  match s with
  | none => dflt
  | some t => if t = "" then dflt else t

/-- The chunk loop of `process_document`: one `Document` per chunk, in order,
with the shared metadata. -/
def build_documents (filename : String) (source_path : Option String)
    (content_hash now : String) (chunks : List String) : List Doc :=
  chunks.enum.map fun ic =>
    { page_content := truncate_chunk ic.2
      source := filename
      source_path := py_or_string source_path filename
      chunk_index := ic.1
      total_chunks := chunks.length
      content_hash := content_hash
      indexed_at := now }

/-- The id list `[f"{filename}_{i}" for i in range(n)]`. -/
def chunk_ids (filename : String) (n : Nat) : List String :=
  (List.range n).map (chunkId filename)

/-- The dict returned by `process_document`.  The skip path carries a
`reason` and no `content_hash`; the normal path carries a `content_hash`
and no `reason`. -/
structure ProcessResult where
  entities_extracted : Nat
  relationships_extracted : Nat
  chunks_created : Nat
  validation_errors : List String
  skipped : Bool
  reason : Option String := none
  content_hash : Option String := none
deriving Repr, DecidableEq

/-- The result `process_document` returns when the document is already in
ChromaDB and `force_reindex` is false. -/
def already_in_chroma_result : ProcessResult :=
  { entities_extracted := 0
    relationships_extracted := 0
    chunks_created := 0
    validation_errors := []
    skipped := true
    reason := some "already_in_chroma" }

/-- `process_document`, parameterised over the collaborators: the text
splitter `split`, the md5 hash `md5hex`, whether entity extraction runs and
its outcome `extraction = (entities, relationships, validation errors)`, the
timestamp `now`, and the embedding back-end's behaviour (`batch_ok` for the
batch insert, `indiv_ok id` for each individual insert in the fallback). -/
def process_document
    (split : String → List String) (md5hex : String → String)
    (extraction_enabled : Bool) (extraction : Nat × Nat × List String)
    (now : String) (batch_ok : Bool) (indiv_ok : String → Bool)
    (store : ChunkStore) (text filename : String) (source_path : Option String)
    (force_reindex : Bool) : ProcessResult × ChunkStore :=
  if !force_reindex && is_document_in_chroma_store store filename then
    (already_in_chroma_result, store)
  else
    let store₁ := if force_reindex then (delete_document_from_chroma filename store).1 else store
    let ecrcve := if extraction_enabled then extraction else (0, 0, [])
    let chunks := split text
    let content_hash := get_document_hash md5hex text
    let documents := build_documents filename source_path content_hash now chunks
    let ids := chunk_ids filename documents.length
    let store₂ :=
      if documents.isEmpty then store₁
      else if batch_ok then store₁ ++ ids.zip documents
      else
        (ids.zip documents).foldl
          (fun acc iddoc =>
            let doc' := { iddoc.2 with
                          page_content := truncate_for_individual iddoc.2.page_content }
            if indiv_ok iddoc.1 then acc ++ [(iddoc.1, doc')] else acc)
          store₁
    ({ entities_extracted := ecrcve.1
       relationships_extracted := ecrcve.2.1
       chunks_created := documents.length
       validation_errors := ecrcve.2.2
       skipped := false
       content_hash := some content_hash }, store₂)

/-! ## The ledger (`IndexedFilesTracker` of `file_tracker.py`)

The filesystem is a partial map from paths to modification times
(`none` models `os.path.getmtime` raising `OSError`); `disk_ok` models
whether writing the tracker file succeeds. -/

/-- The `stats` dict stored in a ledger entry. -/
inductive Stats where
  /-- `{}` (no stats given). -/
  | empty
  /-- `{'synced': True}` — written by `sync_tracker_with_chroma`. -/
  | synced
  /-- `{'synced_from_chroma': True}` — written by the scan's store-skip branch. -/
  | syncedFromChroma
  /-- The result dict of a successful `process_document` call. -/
  | ofResult (r : ProcessResult)
deriving Repr, DecidableEq

/-- One value of the `indexed_files` dict. -/
structure LedgerEntry where
  mtime : Nat
  indexed_at : String
  stats : Stats
deriving Repr, DecidableEq

/-- The tracker: the in-memory `indexed_files` dict and the persisted copy
(`indexed_files.json`) written by `save`. -/
structure IndexedFilesTracker where
  indexed_files : List (String × LedgerEntry)
  disk : List (String × LedgerEntry)
deriving Repr, DecidableEq

/-- Python dict update `d[k] = v`: replace in place if the key exists,
append otherwise. -/
def dictInsert (k : String) (v : LedgerEntry) :
    List (String × LedgerEntry) → List (String × LedgerEntry)
  | [] => [(k, v)]
  | (k', v') :: rest => if k' = k then (k, v) :: rest else (k', v') :: dictInsert k v rest

/-- `IndexedFilesTracker.save`: rewrite the tracker file; fails when the
disk write fails. -/
def tracker_save (disk_ok : Bool) (t : IndexedFilesTracker) :
    Except Unit IndexedFilesTracker :=
  if disk_ok then .ok { t with disk := t.indexed_files } else .error ()

/-- `IndexedFilesTracker.is_indexed`: false when there is no entry; when
there is one, compare the current modification time with the stored one,
and treat an `OSError` from `getmtime` (`fs filepath = none`) as false. -/
def is_indexed (fs : String → Option Nat) (t : IndexedFilesTracker)
    (filepath : String) : Bool :=
  match t.indexed_files.lookup filepath with
  | none => false
  | some entry =>
    match fs filepath with
    | none => false
    | some current_mtime => current_mtime ≤ entry.mtime

/-- `IndexedFilesTracker.mark_indexed`: upsert the entry with the current
modification time, then save.  The whole body sits in a
`try ... except OSError` that only prints: a `getmtime` failure leaves the
tracker untouched, and a `save` failure keeps the freshly inserted entry in
memory while the persisted copy stays behind — in either case the caller
sees a normal return. -/
def mark_indexed (fs : String → Option Nat) (disk_ok : Bool)
    (t : IndexedFilesTracker) (filepath : String) (stats : Stats)
    (now : String) : IndexedFilesTracker :=
  match fs filepath with
  | none => t
  | some m =>
    let t' := { t with indexed_files := dictInsert filepath ⟨m, now, stats⟩ t.indexed_files }
    match tracker_save disk_ok t' with
    | .ok t'' => t''
    | .error _ => t'

/-- `IndexedFilesTracker.get_all_indexed`: the list of tracked paths. -/
def get_all_indexed (t : IndexedFilesTracker) : List String :=
  t.indexed_files.map (·.1)

/-- `os.path.basename`: the component after the last `/`. -/
def basename (p : String) : String :=
  String.mk ((p.data.reverse.takeWhile (fun c => !(c == '/'))).reverse)

/-! ## Reconciliation (`sync_tracker_with_chroma`) -/

/-- The synthetic entry inserted for a store filename missing from the
tracker: `{'mtime': 0, 'indexed_at': 'synced_from_chroma',
'stats': {'synced': True}}`. -/
def synced_entry : LedgerEntry :=
  ⟨0, "synced_from_chroma", .synced⟩

/-- `missing_from_tracker`: the store's enumerated source filenames absent
from the set of basenames of the tracked paths. -/
def sync_missing (store : ChunkStore) (t : IndexedFilesTracker) : List String :=
  (get_indexed_sources_from_chroma store).filter
    (fun s => !(((get_all_indexed t).map basename).contains s))

/-- `sync_tracker_with_chroma`: for every distinct store source filename
absent from the basenames of the tracked paths, insert the synthetic entry;
save once if anything was added; return the number of additions.  The save
is not guarded by a `try`, so a failed write propagates. -/
def sync_tracker_with_chroma (disk_ok : Bool) (store : ChunkStore)
    (t : IndexedFilesTracker) : Except Unit (IndexedFilesTracker × Nat) :=
  let missing := sync_missing store t
  if missing.isEmpty then .ok (t, missing.length)
  else
    let t' := { t with indexed_files :=
                  missing.foldl (fun m f => dictInsert f synced_entry m) t.indexed_files }
    match tracker_save disk_ok t' with
    | .ok t'' => .ok (t'', missing.length)
    | .error e => .error e

/-! ## The startup scan (`scan_and_index_data_store`) -/

/-- `SUPPORTED_EXTENSIONS` from `config.py`. -/
def SUPPORTED_EXTENSIONS : List String :=
  ["pdf", "docx", "txt", "csv", "json", "md", "html", "xml"]

/-- Python `c in s` for a single character. -/
def py_contains (s : String) (c : Char) : Bool :=
  s.data.contains c

/-- Python `s.lower()`. -/
def py_lower (s : String) : String :=
  String.mk (s.data.map Char.toLower)

/-- Python `s.strip()`: drop whitespace from both ends. -/
def py_strip (s : String) : String :=
  String.mk (((s.data.dropWhile Char.isWhitespace).reverse.dropWhile
    Char.isWhitespace).reverse)

/-- `filename.rsplit('.', 1)[-1].lower() if '.' in filename else ''`:
the text after the last dot, lowercased. -/
def file_ext (filename : String) : String :=
  if py_contains filename '.' then
    py_lower (String.mk ((filename.data.reverse.takeWhile (fun c => !(c == '.'))).reverse))
  else ""

/-- The mutable state of one scan: the tracker, the store, and the three
counters. -/
structure ScanState where
  tracker : IndexedFilesTracker
  store : ChunkStore
  files_indexed : Nat
  files_skipped_tracker : Nat
  files_skipped_chroma : Nat
deriving Repr, DecidableEq

/-- The body of `scan_and_index_data_store`'s file loop for one
`(root, filename)` produced by `os.walk`: skip unsupported extensions, skip
tracked-and-fresh files, repair the tracker for files already in ChromaDB
(`chroma_sources` was enumerated once, before the loop), and otherwise
extract, process and mark.  `extract` is the text-extraction collaborator. -/
def scan_process_file (fs : String → Option Nat) (disk_ok : Bool)
    (extract : String → String)
    (split : String → List String) (md5hex : String → String)
    (extraction_enabled : Bool) (extraction : Nat × Nat × List String)
    (now : String) (batch_ok : Bool) (indiv_ok : String → Bool)
    (chroma_sources : List String) (st : ScanState)
    (root filename : String) : ScanState :=
  let filepath := root ++ "/" ++ filename
  if !(SUPPORTED_EXTENSIONS.contains (file_ext filename)) then st
  else if is_indexed fs st.tracker filepath then
    { st with files_skipped_tracker := st.files_skipped_tracker + 1 }
  else if chroma_sources.contains filename then
    { st with
      tracker := mark_indexed fs disk_ok st.tracker filepath .syncedFromChroma now
      files_skipped_chroma := st.files_skipped_chroma + 1 }
  else
    let text := extract filepath
    if py_strip text ≠ "" then
      let out := process_document split md5hex extraction_enabled extraction now
        batch_ok indiv_ok st.store text filename (some filepath) false
      if !out.1.skipped then
        { st with
          store := out.2
          tracker := mark_indexed fs disk_ok st.tracker filepath (.ofResult out.1) now
          files_indexed := st.files_indexed + 1 }
      else
        { st with store := out.2
                  files_skipped_chroma := st.files_skipped_chroma + 1 }
    else st

/-- `scan_and_index_data_store`: sync the tracker with ChromaDB, enumerate
the store's sources once, fold the file loop over the walked files, and
return the final state with the count of newly indexed files. -/
def scan_and_index_data_store (fs : String → Option Nat) (disk_ok : Bool)
    (extract : String → String)
    (split : String → List String) (md5hex : String → String)
    (extraction_enabled : Bool) (extraction : Nat × Nat × List String)
    (now : String) (batch_ok : Bool) (indiv_ok : String → Bool)
    (files : List (String × String)) (store : ChunkStore)
    (t : IndexedFilesTracker) : Except Unit (ScanState × Nat) := do
  let synced ← sync_tracker_with_chroma disk_ok store t
  let chroma_sources := get_indexed_sources_from_chroma store
  let init : ScanState := ⟨synced.1, store, 0, 0, 0⟩
  let final := files.foldl
    (fun st rf => scan_process_file fs disk_ok extract split md5hex
      extraction_enabled extraction now batch_ok indiv_ok chroma_sources st rf.1 rf.2)
    init
  pure (final, final.files_indexed)

/-! ## Concrete fixtures

Closed instances of the external collaborators, used to evaluate the
theorems on concrete inputs. -/

/-- A splitter producing two chunks from any text. -/
def split_pair : String → List String := fun t => [t, t]

/-- A stand-in for the md5 collaborator. -/
def md5_stub : String → String := fun s => "h" ++ s

/-- An embedding back-end for which every individual insert succeeds. -/
def all_ok : String → Bool := fun _ => true

/-- An embedding back-end for which the individual insert of chunk
`"f.txt_1"` fails and every other succeeds. -/
def fail_f1 : String → Bool := fun id => !(id == "f.txt_1")

/-- A filesystem on which every path has modification time 5. -/
def fs_at5 : String → Option Nat := fun _ => some 5

/-- A filesystem on which every path has modification time 7. -/
def fs_at7 : String → Option Nat := fun _ => some 7

/-- A filesystem on which `getmtime` raises `OSError` for every path. -/
def fs_gone : String → Option Nat := fun _ => none

/-- A text-extraction collaborator returning fixed text. -/
def extract_stub : String → String := fun _ => "some text"

/-- A metadata-filter query path that raises on every call. -/
def raising_probe : String → Except ChromaErr (List String) := fun _ => .error .err

/-- A store record for source `src` with chunk index 0. -/
def sample_doc (src : String) : Doc :=
  ⟨"text", src, src, 0, 1, "h", "t"⟩

/-- A chunk one character over `MAX_CHUNK_CHARS`. -/
def long_chunk : String := String.mk (List.replicate 1501 'a')

/-- A metadata-filter query path that succeeds with an empty result. -/
def empty_ok_probe : String → Except ChromaErr (List String) := fun _ => .ok []

/-- A store holding one chunk each for sources `A` and `B`. -/
def store_ab : ChunkStore := [("A_0", sample_doc "A"), ("B_0", sample_doc "B")]

/-- An initial scan state: empty tracker, empty store, zero counters. -/
def st0 : ScanState := ⟨⟨[], []⟩, [], 0, 0, 0⟩

/-! ## Helper lemmas -/

/-- `Nat.digitChar` is injective on digits below 10. -/
theorem digitChar_inj_of_lt {a b : Nat} (ha : a < 10) (hb : b < 10)
    (h : Nat.digitChar a = Nat.digitChar b) : a = b := by
  have key : ∀ x y : Fin 10, Nat.digitChar x.val = Nat.digitChar y.val → x = y := by decide
  exact congrArg Fin.val (key ⟨a, ha⟩ ⟨b, hb⟩ h)

theorem natReprAux_ne_nil : ∀ (f n : Nat), n < f → natReprAux f n ≠ []
  | f + 1, n, _ => by
    unfold natReprAux
    by_cases h : n < 10 <;> simp [h]

theorem natReprAux_inj : ∀ (f₁ f₂ n m : Nat), n < f₁ → m < f₂ →
    natReprAux f₁ n = natReprAux f₂ m → n = m
  | 0, _, _, _, hn, _, _ => absurd hn (Nat.not_lt_zero _)
  | _ + 1, 0, _, _, _, hm, _ => absurd hm (Nat.not_lt_zero _)
  | f₁ + 1, f₂ + 1, n, m, hn, hm, h => by
    unfold natReprAux at h
    have hdivn : n ≥ 10 → n / 10 < f₁ := fun hge => by
      have : n / 10 < n := Nat.div_lt_self (by omega) (by omega)
      omega
    have hdivm : m ≥ 10 → m / 10 < f₂ := fun hge => by
      have : m / 10 < m := Nat.div_lt_self (by omega) (by omega)
      omega
    by_cases h10n : n < 10 <;> by_cases h10m : m < 10
    · rw [if_pos h10n, if_pos h10m] at h
      simp only [List.cons.injEq, and_true] at h
      exact digitChar_inj_of_lt h10n h10m h
    · exfalso
      rw [if_pos h10n, if_neg h10m] at h
      have hlen := congrArg List.length h
      simp only [List.length_cons, List.length_nil, List.length_append] at hlen
      exact natReprAux_ne_nil f₂ (m / 10) (hdivm (by omega))
        (List.length_eq_zero.mp (by omega))
    · exfalso
      rw [if_neg h10n, if_pos h10m] at h
      have hlen := congrArg List.length h
      simp only [List.length_cons, List.length_nil, List.length_append] at hlen
      exact natReprAux_ne_nil f₁ (n / 10) (hdivn (by omega))
        (List.length_eq_zero.mp (by omega))
    · rw [if_neg h10n, if_neg h10m] at h
      have hrev := congrArg List.reverse h
      simp only [List.reverse_append, List.reverse_cons, List.reverse_nil,
        List.nil_append, List.singleton_append, List.cons.injEq] at hrev
      have hmod : n % 10 = m % 10 :=
        digitChar_inj_of_lt (Nat.mod_lt _ (by omega)) (Nat.mod_lt _ (by omega)) hrev.1
      have hdivs : natReprAux f₁ (n / 10) = natReprAux f₂ (m / 10) :=
        List.reverse_injective hrev.2
      have hdiv : n / 10 = m / 10 :=
        natReprAux_inj f₁ f₂ (n / 10) (m / 10) (hdivn (by omega)) (hdivm (by omega)) hdivs
      omega

theorem natRepr_injective : Function.Injective natRepr := by
  intro n m h
  exact natReprAux_inj (n + 1) (m + 1) n m (by omega) (by omega) (congrArg String.data h)

theorem chunkId_injective (filename : String) : Function.Injective (chunkId filename) := by
  intro i j h
  apply natRepr_injective
  have hd : (filename ++ "_").data ++ (natRepr i).data
      = (filename ++ "_").data ++ (natRepr j).data := congrArg String.data h
  exact String.ext (List.append_cancel_left hd)

theorem chunk_ids_nodup (filename : String) (n : Nat) : (chunk_ids filename n).Nodup :=
  (List.nodup_range n).map (chunkId_injective filename)

theorem chunk_ids_length (filename : String) (n : Nat) :
    (chunk_ids filename n).length = n := by
  simp [chunk_ids]

theorem lookup_dictInsert (k : String) (v : LedgerEntry) (p : String) :
    ∀ l : List (String × LedgerEntry),
      (dictInsert k v l).lookup p = if p = k then some v else l.lookup p
  | [] => by
    by_cases hp : p = k
    · simp [dictInsert, List.lookup, hp]
    · have hb : (p == k) = false := beq_eq_false_iff_ne.mpr hp
      simp [dictInsert, List.lookup, hp, hb]
  | (k', v') :: tl => by
    by_cases hk : k' = k
    · subst hk
      by_cases hp : p = k'
      · simp [dictInsert, List.lookup, hp]
      · have hb : (p == k') = false := beq_eq_false_iff_ne.mpr hp
        simp [dictInsert, List.lookup, hp, hb]
    · have ih := lookup_dictInsert k v p tl
      by_cases hp : p = k'
      · subst hp
        simp [dictInsert, List.lookup, hk]
      · have hb : (p == k') = false := beq_eq_false_iff_ne.mpr hp
        simp [dictInsert, List.lookup, hk, hp, hb, ih]

theorem lookup_foldl_dictInsert (v : LedgerEntry) (p : String) :
    ∀ (l : List String) (m : List (String × LedgerEntry)),
      (l.foldl (fun acc f => dictInsert f v acc) m).lookup p
        = if p ∈ l then some v else m.lookup p
  | [], m => by simp
  | f :: tl, m => by
    have ih := lookup_foldl_dictInsert v p tl (dictInsert f v m)
    simp only [List.foldl_cons, ih, lookup_dictInsert]
    by_cases hpf : p = f
    · by_cases htl : p ∈ tl <;> simp [hpf, htl]
    · by_cases htl : p ∈ tl <;> simp [List.mem_cons, hpf, htl]

/-- If some record of the store has `source = filename`, the metadata-filter
probe finds it and `is_document_in_chroma` answers true. -/
theorem is_document_in_chroma_store_of_mem {store : ChunkStore} {filename : String}
    (h : ∃ p ∈ store, p.2.source = filename) :
    is_document_in_chroma_store store filename = true := by
  obtain ⟨p, hp, hsrc⟩ := h
  have hfilter : store.filter (fun q => q.2.source == filename) ≠ [] := by
    intro hnil
    have hmem : p ∈ store.filter (fun q => q.2.source == filename) := by
      simp [List.mem_filter, hp, hsrc]
    rw [hnil] at hmem
    exact absurd hmem (List.not_mem_nil p)
  have hpos : 0 < (((store.filter (fun q => q.2.source == filename)).map (·.1)).take 1).length := by
    rw [List.length_take, List.length_map]
    have := List.length_pos.mpr hfilter
    omega
  simp only [is_document_in_chroma_store, is_document_in_chroma, chromaGetBySource]
  rw [if_pos hpos]

theorem build_documents_length (filename : String) (sp : Option String)
    (ch now : String) (chunks : List String) :
    (build_documents filename sp ch now chunks).length = chunks.length := by
  simp [build_documents]

theorem build_documents_getElem? (filename : String) (sp : Option String)
    (ch now : String) (chunks : List String) (i : Nat) :
    (build_documents filename sp ch now chunks)[i]?
      = chunks[i]?.map (fun c =>
          { page_content := truncate_chunk c
            source := filename
            source_path := py_or_string sp filename
            chunk_index := i
            total_chunks := chunks.length
            content_hash := ch
            indexed_at := now }) := by
  simp only [build_documents, List.getElem?_map, List.getElem?_enum]
  cases chunks[i]? <;> rfl

theorem build_documents_content_hash {filename : String} {sp : Option String}
    {ch now : String} {chunks : List String} {d : Doc}
    (hd : d ∈ build_documents filename sp ch now chunks) : d.content_hash = ch := by
  simp only [build_documents, List.mem_map] at hd
  obtain ⟨ic, _, rfl⟩ := hd
  rfl

theorem build_documents_source {filename : String} {sp : Option String}
    {ch now : String} {chunks : List String} {d : Doc}
    (hd : d ∈ build_documents filename sp ch now chunks) : d.source = filename := by
  simp only [build_documents, List.mem_map] at hd
  obtain ⟨ic, _, rfl⟩ := hd
  rfl

/-- When the document is found in the store and `force_reindex` is false,
`process_document` returns the skip result and leaves the store alone. -/
theorem process_document_skip (split : String → List String) (md5hex : String → String)
    (ee : Bool) (ex : Nat × Nat × List String) (now : String) (bok : Bool)
    (iok : String → Bool) (store : ChunkStore) (text filename : String)
    (sp : Option String)
    (hpres : is_document_in_chroma_store store filename = true) :
    process_document split md5hex ee ex now bok iok store text filename sp false
      = (already_in_chroma_result, store) := by
  simp [process_document, hpres]

/-- The result dict of the non-skip path. -/
theorem process_document_result_not_in_store (split : String → List String)
    (md5hex : String → String) (ee : Bool) (ex : Nat × Nat × List String)
    (now : String) (bok : Bool) (iok : String → Bool) (store : ChunkStore)
    (text filename : String) (sp : Option String)
    (habsent : is_document_in_chroma_store store filename = false) :
    (process_document split md5hex ee ex now bok iok store text filename sp false).1
      = { entities_extracted := (if ee then ex else (0, 0, [])).1
          relationships_extracted := (if ee then ex else (0, 0, [])).2.1
          chunks_created := (split text).length
          validation_errors := (if ee then ex else (0, 0, [])).2.2
          skipped := false
          content_hash := some (get_document_hash md5hex text) } := by
  simp [process_document, habsent, build_documents_length]

/-- The store after the non-skip path with a succeeding batch insert. -/
theorem process_document_store_batch (split : String → List String)
    (md5hex : String → String) (ee : Bool) (ex : Nat × Nat × List String)
    (now : String) (iok : String → Bool) (store : ChunkStore)
    (text filename : String) (sp : Option String)
    (habsent : is_document_in_chroma_store store filename = false) :
    (process_document split md5hex ee ex now true iok store text filename sp false).2
      = store ++ (chunk_ids filename (split text).length).zip
          (build_documents filename sp (get_document_hash md5hex text) now (split text)) := by
  simp only [process_document, habsent, Bool.not_false, Bool.true_and, Bool.and_false,
    if_false, if_true, Bool.false_eq_true, ite_false, ite_true]
  by_cases hemp :
      (build_documents filename sp (get_document_hash md5hex text) now (split text)).isEmpty
  · simp [hemp, List.isEmpty_iff.mp hemp]
  · simp [hemp, build_documents_length]

/-- After a first successful (batch) indexing of a document with at least one
chunk, the store contains a record with `source = filename`, so the
existence probe finds it. -/
theorem presence_after_batch (split : String → List String)
    (md5hex : String → String) (ee : Bool) (ex : Nat × Nat × List String)
    (now : String) (iok : String → Bool) (store : ChunkStore)
    (text filename : String) (sp : Option String)
    (hsplit : split text ≠ []) :
    is_document_in_chroma_store
      (process_document split md5hex ee ex now true iok store text filename sp false).2
      filename = true := by
  by_cases hpres : is_document_in_chroma_store store filename = true
  · rw [process_document_skip split md5hex ee ex now true iok store text filename sp hpres]
    exact hpres
  · have habsent : is_document_in_chroma_store store filename = false :=
      Bool.not_eq_true _ ▸ eq_false_of_ne_true hpres
    rw [process_document_store_batch split md5hex ee ex now iok store text filename sp habsent]
    apply is_document_in_chroma_store_of_mem
    have hlen : 0 < ((chunk_ids filename (split text).length).zip
        (build_documents filename sp (get_document_hash md5hex text) now (split text))).length := by
      rw [List.length_zip, chunk_ids_length, build_documents_length]
      have := List.length_pos.mpr hsplit
      omega
    obtain ⟨p, hp⟩ := List.exists_mem_of_length_pos hlen
    exact ⟨p, List.mem_append_right _ hp, build_documents_source (List.of_mem_zip hp).2⟩

theorem foldl_append_if {α β : Type} (P : α → Bool) (g : α → β) :
    ∀ (l : List α) (init : List β),
      l.foldl (fun acc x => if P x then acc ++ [g x] else acc) init
        = init ++ (l.filter P).map g
  | [], _ => by simp
  | x :: tl, init => by
    by_cases hx : P x <;>
      simp [List.foldl_cons, hx, foldl_append_if P g tl, List.filter_cons]

/-- The store after the non-skip path when the batch insert fails: exactly
the chunks whose individual insert succeeds are appended, each further
truncated to the individual cap. -/
theorem process_document_store_indiv (split : String → List String)
    (md5hex : String → String) (ee : Bool) (ex : Nat × Nat × List String)
    (now : String) (iok : String → Bool) (store : ChunkStore)
    (text filename : String) (sp : Option String)
    (habsent : is_document_in_chroma_store store filename = false) :
    (process_document split md5hex ee ex now false iok store text filename sp false).2
      = store ++ (((chunk_ids filename (split text).length).zip
            (build_documents filename sp (get_document_hash md5hex text) now (split text))).filter
              (fun p : String × Doc => iok p.1)).map
          (fun p : String × Doc =>
            (p.1, { p.2 with page_content := truncate_for_individual p.2.page_content })) := by
  simp only [process_document, habsent, Bool.not_false, Bool.true_and, Bool.and_false,
    if_false, if_true, Bool.false_eq_true, ite_false, ite_true]
  by_cases hemp :
      (build_documents filename sp (get_document_hash md5hex text) now (split text)).isEmpty
  · simp [hemp, List.isEmpty_iff.mp hemp]
  · simp only [hemp, build_documents_length, ite_false, Bool.false_eq_true]
    exact foldl_append_if (fun p : String × Doc => iok p.1)
      (fun p : String × Doc =>
        (p.1, { p.2 with page_content := truncate_for_individual p.2.page_content })) _ _

/-! ## Claims -/

/-- **C1**: a document whose filename the store existence check finds is
skipped by `process_document` without `force_reindex`: the returned result
is the skip result (`skipped = true`, reason `already_in_chroma`, zero
counters) and the store is returned unchanged, so no insertion or deletion
happens and the chunk count is unchanged.  Hence indexing the same
`(filename, identical text)` twice (with the text yielding at least one
chunk and the batch insert succeeding) skips the second time and leaves
the store of the first call unchanged. -/
theorem claim_idempotent_skip (split : String → List String)
    (md5hex : String → String) (ee : Bool) (ex : Nat × Nat × List String)
    (now : String) (bok : Bool) (iok : String → Bool) (store : ChunkStore)
    (text filename : String) (sp : Option String) :
    (is_document_in_chroma_store store filename = true →
      process_document split md5hex ee ex now bok iok store text filename sp false
        = (already_in_chroma_result, store))
    ∧ (split text ≠ [] →
      process_document split md5hex ee ex now true iok
          (process_document split md5hex ee ex now true iok store text filename sp false).2
          text filename sp false
        = (already_in_chroma_result,
            (process_document split md5hex ee ex now true iok store text filename sp false).2)) := by
  constructor
  · intro hpres
    exact process_document_skip split md5hex ee ex now bok iok store text filename sp hpres
  · intro hsplit
    exact process_document_skip split md5hex ee ex now true iok _ text filename sp
      (presence_after_batch split md5hex ee ex now iok store text filename sp hsplit)

theorem claim_idempotent_skip_witness :
    split_pair "hi" ≠ []
    ∧ process_document split_pair md5_stub false (0, 0, []) "t" true all_ok
          (process_document split_pair md5_stub false (0, 0, []) "t" true all_ok
            [] "hi" "f.txt" none false).2
          "hi" "f.txt" none false
        = (already_in_chroma_result,
            (process_document split_pair md5_stub false (0, 0, []) "t" true all_ok
              [] "hi" "f.txt" none false).2) :=
  ⟨by decide,
   (claim_idempotent_skip split_pair md5_stub false (0, 0, []) "t" true all_ok
      [] "hi" "f.txt" none).2 (by decide)⟩

/-- **C5**: `is_indexed` is false without an entry; with an entry and a
readable modification time it is true exactly when the current time is at
most the stored one; and after a successful `mark_indexed`, any strictly
later modification time makes `is_indexed` false. -/
theorem claim_ledger_staleness (fs fs' : String → Option Nat)
    (t : IndexedFilesTracker) (p : String) (s : Stats) (now : String) :
    (t.indexed_files.lookup p = none → is_indexed fs t p = false)
    ∧ (∀ e m, t.indexed_files.lookup p = some e → fs p = some m →
        (is_indexed fs t p = true ↔ m ≤ e.mtime))
    ∧ (∀ m m', fs p = some m → fs' p = some m' → m < m' →
        is_indexed fs' (mark_indexed fs true t p s now) p = false) := by
  refine ⟨fun h => by simp [is_indexed, h],
          fun e m he hm => by simp [is_indexed, he, hm], ?_⟩
  intro m m' hm hm' hlt
  have hlook : (dictInsert p ⟨m, now, s⟩ t.indexed_files).lookup p = some ⟨m, now, s⟩ := by
    rw [lookup_dictInsert]
    simp
  simp only [mark_indexed, hm, tracker_save, if_true]
  simp [is_indexed, hlook, hm']
  omega

theorem claim_ledger_staleness_witness :
    is_indexed fs_at5 ⟨[], []⟩ "a.txt" = false
    ∧ is_indexed fs_at7 (mark_indexed fs_at5 true ⟨[], []⟩ "a.txt" .empty "t") "a.txt"
        = false :=
  ⟨(claim_ledger_staleness fs_at5 fs_at7 ⟨[], []⟩ "a.txt" .empty "t").1 rfl,
   (claim_ledger_staleness fs_at5 fs_at7 ⟨[], []⟩ "a.txt" .empty "t").2.2 5 7 rfl rfl
     (by decide)⟩

/-- **C7**: the chunk loop keeps every chunk (one record per chunk, none
dropped or re-chunked), stores an over-length chunk as exactly its first
`MAX_CHUNK_CHARS` characters followed by the ellipsis marker, and stores a
within-cap chunk unchanged. -/
theorem claim_truncation_policy (filename : String) (sp : Option String)
    (ch now : String) (chunks : List String) (i : Nat) (c : String)
    (h : chunks[i]? = some c) :
    (build_documents filename sp ch now chunks).length = chunks.length
    ∧ (build_documents filename sp ch now chunks)[i]?.map Doc.page_content
        = some (if MAX_CHUNK_CHARS < c.length
                then c.take MAX_CHUNK_CHARS ++ "..."
                else c) := by
  refine ⟨build_documents_length filename sp ch now chunks, ?_⟩
  rw [build_documents_getElem?, h]
  simp [truncate_chunk, gt_iff_lt]

theorem claim_truncation_policy_witness :
    (build_documents "f.txt" none "h" "t" [long_chunk, "b"]).length
      = ([long_chunk, "b"] : List String).length
    ∧ (build_documents "f.txt" none "h" "t" [long_chunk, "b"])[0]?.map Doc.page_content
        = some (if MAX_CHUNK_CHARS < long_chunk.length
                then long_chunk.take MAX_CHUNK_CHARS ++ "..."
                else long_chunk) :=
  claim_truncation_policy "f.txt" none "h" "t" [long_chunk, "b"] 0 long_chunk rfl

/-- **C8**: for a document splitting into `N` chunks, `process_document`
builds exactly `N` records; the insertion ids are exactly
`"<filename>_0" … "<filename>_(N-1)"` in order, with no gaps and no
duplicates; the batch insert pairs id `i` with record `i`; and every record
carries the fingerprint of the whole text, computed once by
`get_document_hash`. -/
theorem claim_chunk_id_determinism (split : String → List String)
    (md5hex : String → String) (ee : Bool) (ex : Nat × Nat × List String)
    (now : String) (iok : String → Bool) (store : ChunkStore)
    (text filename : String) (sp : Option String)
    (habsent : is_document_in_chroma_store store filename = false) :
    (build_documents filename sp (get_document_hash md5hex text) now (split text)).length
      = (split text).length
    ∧ chunk_ids filename (split text).length
        = (List.range (split text).length).map (fun i => filename ++ "_" ++ natRepr i)
    ∧ (chunk_ids filename (split text).length).Nodup
    ∧ (process_document split md5hex ee ex now true iok store text filename sp false).2
        = store ++ (chunk_ids filename (split text).length).zip
            (build_documents filename sp (get_document_hash md5hex text) now (split text))
    ∧ ∀ d ∈ build_documents filename sp (get_document_hash md5hex text) now (split text),
        d.content_hash = get_document_hash md5hex text :=
  ⟨build_documents_length filename sp (get_document_hash md5hex text) now (split text),
   rfl,
   chunk_ids_nodup filename (split text).length,
   process_document_store_batch split md5hex ee ex now iok store text filename sp habsent,
   fun _ hd => build_documents_content_hash hd⟩

theorem claim_chunk_id_determinism_witness :
    (build_documents "f.txt" none (get_document_hash md5_stub "hi") "t"
        (split_pair "hi")).length = (split_pair "hi").length
    ∧ chunk_ids "f.txt" (split_pair "hi").length
        = (List.range (split_pair "hi").length).map (fun i => "f.txt" ++ "_" ++ natRepr i)
    ∧ (chunk_ids "f.txt" (split_pair "hi").length).Nodup
    ∧ (process_document split_pair md5_stub false (0, 0, []) "t" true all_ok
          [] "hi" "f.txt" none false).2
        = [] ++ (chunk_ids "f.txt" (split_pair "hi").length).zip
            (build_documents "f.txt" none (get_document_hash md5_stub "hi") "t"
              (split_pair "hi"))
    ∧ ∀ d ∈ build_documents "f.txt" none (get_document_hash md5_stub "hi") "t"
          (split_pair "hi"),
        d.content_hash = get_document_hash md5_stub "hi" :=
  claim_chunk_id_determinism split_pair md5_stub false (0, 0, []) "t" all_ok
    [] "hi" "f.txt" none (by decide)

/-- **C10**: a path with a ledger entry whose modification time cannot be
read (`OSError`, the file vanished) is reported not indexed: `is_indexed`
returns false without raising, while the entry remains in the ledger. -/
theorem claim_vanished_not_indexed (fs : String → Option Nat)
    (t : IndexedFilesTracker) (p : String) (e : LedgerEntry)
    (hentry : t.indexed_files.lookup p = some e) (hfs : fs p = none) :
    is_indexed fs t p = false := by
  simp [is_indexed, hentry, hfs]

theorem claim_vanished_not_indexed_witness :
    is_indexed fs_gone ⟨[("a.txt", ⟨5, "t", .empty⟩)], []⟩ "a.txt" = false :=
  claim_vanished_not_indexed fs_gone ⟨[("a.txt", ⟨5, "t", .empty⟩)], []⟩ "a.txt"
    ⟨5, "t", .empty⟩ (by decide) rfl

/-- **C2**: reconciliation adds, for each distinct store source filename
absent from the basenames of the ledger keys, an entry with `mtime = 0` and
`stats = {'synced': True}`, modifies no other entry, persists the ledger
(when anything was added — otherwise the persisted copy already agrees),
and returns the number of entries added. -/
theorem claim_sync_reconciliation (store : ChunkStore) (t : IndexedFilesTracker) :
    ∃ t', sync_tracker_with_chroma true store t = .ok (t', (sync_missing store t).length)
      ∧ (∀ f ∈ sync_missing store t, t'.indexed_files.lookup f = some synced_entry)
      ∧ (∀ p, p ∉ sync_missing store t →
          t'.indexed_files.lookup p = t.indexed_files.lookup p)
      ∧ (sync_missing store t ≠ [] → t'.disk = t'.indexed_files) := by
  by_cases hemp : (sync_missing store t).isEmpty
  · refine ⟨t, ?_, ?_, fun p _ => rfl, ?_⟩
    · simp [sync_tracker_with_chroma, hemp]
    · intro f hf
      rw [List.isEmpty_iff.mp hemp] at hf
      exact absurd hf (List.not_mem_nil f)
    · intro hne
      exact absurd (List.isEmpty_iff.mp hemp) hne
  · refine ⟨⟨(sync_missing store t).foldl (fun m f => dictInsert f synced_entry m)
              t.indexed_files,
            (sync_missing store t).foldl (fun m f => dictInsert f synced_entry m)
              t.indexed_files⟩, ?_, ?_, ?_, fun _ => rfl⟩
    · simp [sync_tracker_with_chroma, hemp, tracker_save]
    · intro f hf
      rw [lookup_foldl_dictInsert, if_pos hf]
    · intro p hp
      rw [lookup_foldl_dictInsert, if_neg hp]

theorem claim_sync_reconciliation_witness :
    ∃ t', sync_tracker_with_chroma true store_ab ⟨[], []⟩ = .ok (t', 2)
      ∧ t'.indexed_files.lookup "A" = some synced_entry
      ∧ t'.indexed_files.lookup "B" = some synced_entry
      ∧ t'.disk = t'.indexed_files := by
  obtain ⟨t', h1, h2, _, h4⟩ := claim_sync_reconciliation store_ab ⟨[], []⟩
  refine ⟨t', ?_, h2 "A" (by decide), h2 "B" (by decide), h4 (by decide)⟩
  have hlen : (sync_missing store_ab ⟨[], []⟩).length = 2 := by decide
  rw [hlen] at h1
  exact h1

/-- **C9**: in the scan loop, a supported file that the ledger does not
consider indexed but whose filename is in the source set enumerated once
per scan is only marked in the ledger with the synced-from-store stats and
counted as skipped-by-store: the result does not depend on the extraction
or splitting collaborators (nothing is re-extracted or re-chunked) and the
store is unchanged (nothing is re-inserted). -/
theorem claim_scan_store_skip (fs : String → Option Nat) (disk_ok : Bool)
    (extract : String → String) (split : String → List String)
    (md5hex : String → String) (ee : Bool) (ex : Nat × Nat × List String)
    (now : String) (bok : Bool) (iok : String → Bool)
    (chroma_sources : List String) (st : ScanState) (root filename : String)
    (hsup : file_ext filename ∈ SUPPORTED_EXTENSIONS)
    (hnotidx : is_indexed fs st.tracker (root ++ "/" ++ filename) = false)
    (hin : filename ∈ chroma_sources) :
    (∀ extract₂ split₂,
      scan_process_file fs disk_ok extract₂ split₂ md5hex ee ex now bok iok
          chroma_sources st root filename
        = { st with
            tracker := mark_indexed fs disk_ok st.tracker (root ++ "/" ++ filename)
              .syncedFromChroma now
            files_skipped_chroma := st.files_skipped_chroma + 1 })
    ∧ (scan_process_file fs disk_ok extract split md5hex ee ex now bok iok
          chroma_sources st root filename).store = st.store := by
  refine ⟨fun extract₂ split₂ => ?_, ?_⟩ <;>
    simp [scan_process_file, hsup, hnotidx, hin]

theorem claim_scan_store_skip_witness :
    (∀ extract₂ split₂,
      scan_process_file fs_at5 true extract₂ split₂ md5_stub false (0, 0, []) "t"
          true all_ok ["a.txt"] st0 "root" "a.txt"
        = { st0 with
            tracker := mark_indexed fs_at5 true st0.tracker ("root" ++ "/" ++ "a.txt")
              .syncedFromChroma "t"
            files_skipped_chroma := st0.files_skipped_chroma + 1 })
    ∧ (scan_process_file fs_at5 true extract_stub split_pair md5_stub false (0, 0, []) "t"
          true all_ok ["a.txt"] st0 "root" "a.txt").store = st0.store :=
  claim_scan_store_skip fs_at5 true extract_stub split_pair md5_stub false (0, 0, []) "t"
    true all_ok ["a.txt"] st0 "root" "a.txt" (by decide) (by decide) (by decide)

/-- **C3 is false on the code**: a chunk that fails its individual insert is
*not* recorded as dropped in the returned result.  Concretely, for a
two-chunk document with the batch insert failing, the run in which every
individual insert succeeds and the run in which chunk `"f.txt_1"` fails
return *identical* results (both report `chunks_created = 2`), while the
stores differ by the missing chunk — so the result records nothing about
dropped chunks. -/
theorem claim_fallback_result_counterexample :
    (process_document split_pair md5_stub false (0, 0, []) "t" false all_ok
        [] "hi" "f.txt" none false).1
      = (process_document split_pair md5_stub false (0, 0, []) "t" false fail_f1
        [] "hi" "f.txt" none false).1
    ∧ (process_document split_pair md5_stub false (0, 0, []) "t" false all_ok
        [] "hi" "f.txt" none false).2
      ≠ (process_document split_pair md5_stub false (0, 0, []) "t" false fail_f1
        [] "hi" "f.txt" none false).2 := by
  exact ⟨by decide, by decide⟩

/-- **C3 (amended)**: on batch failure `process_document` falls back to
individual inserts, truncating over-length text to the 1000-char cap before
each attempt; a chunk that still fails is skipped (only logged) and the
document is not aborted; the returned result does not depend on which
individual inserts failed — it reports `chunks_created = N` regardless and
records no dropped chunks — and when every individual insert succeeds all
`N` chunks are in the store. -/
theorem claim_fallback_amended (split : String → List String)
    (md5hex : String → String) (ee : Bool) (ex : Nat × Nat × List String)
    (now : String) (iok : String → Bool) (store : ChunkStore)
    (text filename : String) (sp : Option String)
    (habsent : is_document_in_chroma_store store filename = false) :
    (process_document split md5hex ee ex now false iok store text filename sp false).2
      = store ++ (((chunk_ids filename (split text).length).zip
            (build_documents filename sp (get_document_hash md5hex text) now
              (split text))).filter
              (fun p : String × Doc => iok p.1)).map
          (fun p : String × Doc =>
            (p.1, { p.2 with page_content := truncate_for_individual p.2.page_content }))
    ∧ (∀ iok₂,
        (process_document split md5hex ee ex now false iok₂ store text filename sp false).1
          = (process_document split md5hex ee ex now false iok store text filename sp false).1)
    ∧ (process_document split md5hex ee ex now false iok store text filename sp
        false).1.chunks_created = (split text).length
    ∧ (process_document split md5hex ee ex now false iok store text filename sp
        false).1.skipped = false
    ∧ ((∀ id, iok id = true) →
        (process_document split md5hex ee ex now false iok store text filename sp false).2
          = store ++ ((chunk_ids filename (split text).length).zip
              (build_documents filename sp (get_document_hash md5hex text) now
                (split text))).map
            (fun p : String × Doc =>
              (p.1, { p.2 with page_content := truncate_for_individual p.2.page_content }))) := by
  have hstore :=
    process_document_store_indiv split md5hex ee ex now iok store text filename sp habsent
  refine ⟨hstore, ?_, ?_, ?_, ?_⟩
  · intro iok₂
    rw [process_document_result_not_in_store split md5hex ee ex now false iok₂ store
          text filename sp habsent,
        process_document_result_not_in_store split md5hex ee ex now false iok store
          text filename sp habsent]
  · rw [process_document_result_not_in_store split md5hex ee ex now false iok store
          text filename sp habsent]
  · rw [process_document_result_not_in_store split md5hex ee ex now false iok store
          text filename sp habsent]
  · intro hall
    rw [hstore, List.filter_eq_self.mpr (fun a _ => hall a.1)]

theorem claim_fallback_amended_witness :
    (process_document split_pair md5_stub false (0, 0, []) "t" false all_ok
        [] "hi" "f.txt" none false).2
      = [] ++ (((chunk_ids "f.txt" (split_pair "hi").length).zip
            (build_documents "f.txt" none (get_document_hash md5_stub "hi") "t"
              (split_pair "hi"))).filter
              (fun p : String × Doc => all_ok p.1)).map
          (fun p : String × Doc =>
            (p.1, { p.2 with page_content := truncate_for_individual p.2.page_content }))
    ∧ (∀ iok₂,
        (process_document split_pair md5_stub false (0, 0, []) "t" false iok₂
            [] "hi" "f.txt" none false).1
          = (process_document split_pair md5_stub false (0, 0, []) "t" false all_ok
            [] "hi" "f.txt" none false).1)
    ∧ (process_document split_pair md5_stub false (0, 0, []) "t" false all_ok
        [] "hi" "f.txt" none false).1.chunks_created = (split_pair "hi").length
    ∧ (process_document split_pair md5_stub false (0, 0, []) "t" false all_ok
        [] "hi" "f.txt" none false).1.skipped = false
    ∧ ((∀ id, all_ok id = true) →
        (process_document split_pair md5_stub false (0, 0, []) "t" false all_ok
            [] "hi" "f.txt" none false).2
          = [] ++ ((chunk_ids "f.txt" (split_pair "hi").length).zip
              (build_documents "f.txt" none (get_document_hash md5_stub "hi") "t"
                (split_pair "hi"))).map
            (fun p : String × Doc =>
              (p.1, { p.2 with page_content := truncate_for_individual p.2.page_content }))) :=
  claim_fallback_amended split_pair md5_stub false (0, 0, []) "t" all_ok
    [] "hi" "f.txt" none (by decide)

/-- **C4 is false on the code**: `mark_indexed`'s body sits in a
`try ... except OSError` that only prints.  A `getmtime` failure returns
normally with the tracker unchanged instead of propagating; worse, a ledger
write failure is swallowed as success: the entry stays in the in-memory map
(the path is then reported indexed) while the persisted copy is unchanged. -/
theorem claim_mark_indexed_counterexample :
    mark_indexed fs_gone true ⟨[], []⟩ "a.txt" .empty "t" = ⟨[], []⟩
    ∧ is_indexed fs_at5 (mark_indexed fs_at5 false ⟨[], []⟩ "a.txt" .empty "t") "a.txt"
        = true
    ∧ (mark_indexed fs_at5 false ⟨[], []⟩ "a.txt" .empty "t").disk = [] := by
  exact ⟨by decide, by decide, by decide⟩

/-- **C4 (amended)**: when the modification time cannot be read,
`mark_indexed` catches the `OSError`, logs it, leaves the tracker unchanged
(the path is not recorded) and returns normally — nothing propagates to the
caller.  When the ledger write fails, the `OSError` is likewise caught: the
entry remains in the in-memory map while the persisted copy is unchanged.
With a readable modification time and a successful write, the entry is
recorded and persisted. -/
theorem claim_mark_indexed_amended (fs : String → Option Nat) (disk_ok : Bool)
    (t : IndexedFilesTracker) (p : String) (s : Stats) (now : String) :
    (fs p = none → mark_indexed fs disk_ok t p s now = t)
    ∧ (∀ m, fs p = some m →
        (mark_indexed fs false t p s now).indexed_files
            = dictInsert p ⟨m, now, s⟩ t.indexed_files
        ∧ (mark_indexed fs false t p s now).disk = t.disk)
    ∧ (∀ m, fs p = some m →
        mark_indexed fs true t p s now
          = ⟨dictInsert p ⟨m, now, s⟩ t.indexed_files,
             dictInsert p ⟨m, now, s⟩ t.indexed_files⟩) := by
  refine ⟨fun h => by simp [mark_indexed, h], fun m hm => ?_, fun m hm => ?_⟩
  · exact ⟨by simp [mark_indexed, hm, tracker_save], by simp [mark_indexed, hm, tracker_save]⟩
  · simp [mark_indexed, hm, tracker_save]

theorem claim_mark_indexed_amended_witness :
    mark_indexed fs_gone true ⟨[], []⟩ "b.txt" .empty "t" = ⟨[], []⟩
    ∧ ((mark_indexed fs_at5 false ⟨[], []⟩ "b.txt" .empty "t").indexed_files
        = dictInsert "b.txt" ⟨5, "t", .empty⟩ []
      ∧ (mark_indexed fs_at5 false ⟨[], []⟩ "b.txt" .empty "t").disk = []) :=
  ⟨(claim_mark_indexed_amended fs_gone true ⟨[], []⟩ "b.txt" .empty "t").1 rfl,
   (claim_mark_indexed_amended fs_at5 false ⟨[], []⟩ "b.txt" .empty "t").2.1 5 rfl⟩

/-- **C6 is false on the code**: the two probes are *not* independently
tried — they share one `try` block.  With a metadata-filter path that
raises and a store holding chunk `"a.txt_0"`, the check returns false even
though the direct-id probe, on its own, finds the chunk. -/
theorem claim_two_probe_counterexample :
    is_document_in_chroma raising_probe
        (chromaGetById [("a.txt_0", sample_doc "a.txt")]) "a.txt" = false
    ∧ chromaGetById [("a.txt_0", sample_doc "a.txt")] ("a.txt" ++ "_0")
        = .ok ["a.txt_0"] := by
  exact ⟨by decide, by rfl⟩

/-- **C6 (amended)**: the direct-id probe is tried exactly when the
metadata query returns successfully with an empty result; a nonempty
successful metadata result answers true immediately; and an exception in
the metadata query is caught and answers false without the id probe ever
being tried. -/
theorem claim_two_probe_amended
    (getWhere getIds : String → Except ChromaErr (List String)) (filename : String) :
    (getWhere filename = .ok [] →
      is_document_in_chroma getWhere getIds filename
        = (match getIds (filename ++ "_0") with
           | .ok ids₂ => decide (ids₂.length > 0)
           | .error _ => false))
    ∧ (∀ e, getWhere filename = .error e →
        is_document_in_chroma getWhere getIds filename = false)
    ∧ (∀ ids, getWhere filename = .ok ids → 0 < ids.length →
        is_document_in_chroma getWhere getIds filename = true) := by
  refine ⟨fun h => ?_, fun e he => by simp [is_document_in_chroma, he], ?_⟩
  · simp only [is_document_in_chroma, h, List.length_nil, gt_iff_lt, Nat.lt_irrefl,
      if_false, ite_false]
    cases hgi : getIds (filename ++ "_0") <;> simp [hgi]
  · intro ids hi hlen
    simp [is_document_in_chroma, hi, hlen]

theorem claim_two_probe_amended_witness :
    is_document_in_chroma empty_ok_probe
        (chromaGetById [("a.txt_0", sample_doc "a.txt")]) "a.txt"
      = (match chromaGetById [("a.txt_0", sample_doc "a.txt")] ("a.txt" ++ "_0") with
         | .ok ids₂ => decide (ids₂.length > 0)
         | .error _ => false)
    ∧ is_document_in_chroma raising_probe
        (chromaGetById [("a.txt_0", sample_doc "a.txt")]) "a.txt" = false :=
  ⟨(claim_two_probe_amended empty_ok_probe
      (chromaGetById [("a.txt_0", sample_doc "a.txt")]) "a.txt").1 rfl,
   (claim_two_probe_amended raising_probe
      (chromaGetById [("a.txt_0", sample_doc "a.txt")]) "a.txt").2.1 .err rfl⟩

end AIAssistant
